import Mathlib

/-!
Verification of the Alltrader position-risk engine.

Shallow embedding of the repository's risk managers
(`src/engine/online/rms.py`, `src/engine/backtest/rms.py`), the order
manager retry loop (`src/engine/online/oms.py`), the live trading state
machine (`src/engine/trader.py`) and the backtest PnL bookkeeping
(`src/engine/backtest/backtest.py`).  Prices, quantities and fractions
are modelled as exact rationals; Python `float` arithmetic is modelled
as real-number arithmetic on ℚ.  Python `None` becomes `Option`,
mutation of `self` becomes explicit state passing.
-/

/-- One ladder entry, Python dict `{"price": .., "qty": ..}`. -/
structure PosEntry where
  price : ℚ
  qty : ℚ
deriving Repr, DecidableEq

/-- Mutable state of a `RiskManager` instance: `self.positions` and
`self.trailing_peak`. -/
structure RMState where
  positions : List PosEntry
  trailing_peak : Option ℚ
deriving Repr, DecidableEq

/-- State of a freshly constructed / `reset()` risk manager. -/
def RMState.empty : RMState := ⟨[], none⟩

namespace OnlineRMS

/-- `self.layers` of the online `RiskManager`
(`src/engine/online/rms.py`): `(multiplier, reverse_pct)` pairs. -/
def layers : List (ℚ × ℚ) :=
  [(1, 0), (1, 1/1000), (2, 2/1000), (4, 2/1000), (2, 2/1000),
   (2, 2/1000), (10, 5/1000), (5, 3/1000), (5, 3/1000), (15, 7/1000),
   (15, 4/1000), (15, 4/1000), (20, 10/1000)]

/-- `self.tp_rules` of the online `RiskManager`: `(tp_pct, trail_pct)`. -/
def tp_rules : List (ℚ × ℚ) :=
  [(10/10000, 4/10000), (10/10000, 3/10000), (10/10000, 3/10000),
   (10/10000, 3/10000), (12/10000, 4/10000), (12/10000, 4/10000),
   (12/10000, 4/10000), (14/10000, 6/10000), (14/10000, 6/10000),
   (14/10000, 6/10000), (16/10000, 8/10000), (16/10000, 8/10000),
   (16/10000, 8/10000)]

/-- `RiskManager.add_position(price, base_qty)`: returns `None` once the
ladder is full, otherwise appends `{price, base_qty * multiplier}` and
returns the quantity.  Result is `(returned value, updated state)`. -/
def add_position (s : RMState) (price base_qty : ℚ) : Option ℚ × RMState :=
  let layer_idx := s.positions.length
  if layers.length ≤ layer_idx then (none, s)
  else
    let qty := base_qty * (layers.getD layer_idx (0, 0)).1
    (some qty, { s with positions := s.positions ++ [⟨price, qty⟩] })

/-- `RiskManager.should_add_position(entry_price, current_price, position)`
of the online risk manager: threshold is the sum
`sum(self.layers[i][1] for i in range(0, layer_idx + 1))`. -/
def should_add_position (s : RMState) (entry_price current_price : ℚ)
    (position : Int) : Bool :=
  if s.positions.isEmpty then true
  else
    let layer_idx := s.positions.length
    if layers.length ≤ layer_idx then false
    else
      let reverse_pct := (((layers.take (layer_idx + 1)).map Prod.snd)).sum
      if position = 1 then
        decide ((entry_price - current_price) / entry_price ≥ reverse_pct)
      else
        decide ((current_price - entry_price) / entry_price ≥ reverse_pct)

/-- `RiskManager._avg_price`: quantity-weighted average entry price. -/
def avg_price (positions : List PosEntry) : ℚ :=
  ((positions.map (fun p => p.price * p.qty)).sum) /
    ((positions.map (fun p => p.qty)).sum)

/-- `RiskManager._first_last_avg`: weighted average of `positions[0]`
and `positions[-1]`. -/
def first_last_avg (positions : List PosEntry) : ℚ :=
  let first := positions.headD ⟨0, 0⟩
  let last := positions.getLastD ⟨0, 0⟩
  (first.price * first.qty + last.price * last.qty) / (first.qty + last.qty)

/-- `RiskManager.check_take_profit(current_price, position)` of the
online risk manager.  Result is `(returned bool, updated state)`. -/
def check_take_profit (s : RMState) (current_price : ℚ)
    (position : Int) : Bool × RMState :=
  if s.positions.length = 0 then (false, s)
  else
    let layer_idx := s.positions.length - 1
    let rule := tp_rules.getD layer_idx (0, 0)
    let base_price :=
      if layer_idx ≤ 6 then avg_price s.positions
      else first_last_avg s.positions
    let pnl_pct :=
      if position = 1 then (current_price - base_price) / base_price
      else (base_price - current_price) / base_price
    if pnl_pct < rule.1 then (false, s)
    else
      match s.trailing_peak with
      | none => (false, { s with trailing_peak := some pnl_pct })
      | some peak =>
        let peak2 := max peak pnl_pct
        let s2 : RMState := { s with trailing_peak := some peak2 }
        if pnl_pct ≤ peak2 - rule.2 then (true, s2) else (false, s2)

end OnlineRMS

namespace BacktestRMS

/-- `self.layers` of the backtest `RiskManager`
(`src/engine/backtest/rms.py`). -/
def layers : List (ℚ × ℚ) :=
  [(1, 1/100), (2, 2/100), (4, 2/100), (2, 2/100), (2, 2/100),
   (10, 5/100), (5, 3/100), (5, 3/100), (15, 7/100), (15, 4/100),
   (15, 4/100), (20, 10/100)]

/-- `self.tp_rules` of the backtest `RiskManager`. -/
def tp_rules : List (ℚ × ℚ) :=
  [(10/1000, 4/1000), (10/1000, 3/1000), (10/1000, 3/1000),
   (10/1000, 3/1000), (12/1000, 4/1000), (12/1000, 4/1000),
   (12/1000, 4/1000), (14/1000, 6/1000), (14/1000, 6/1000),
   (14/1000, 6/1000), (16/1000, 8/1000), (16/1000, 8/1000),
   (16/1000, 8/1000)]

/-- `RiskManager.add_position(price, base_qty)` of the backtest
risk manager (same algorithm over its own `layers`). -/
def add_position (s : RMState) (price base_qty : ℚ) : Option ℚ × RMState :=
  let layer_idx := s.positions.length
  if layers.length ≤ layer_idx then (none, s)
  else
    let qty := base_qty * (layers.getD layer_idx (0, 0)).1
    (some qty, { s with positions := s.positions ++ [⟨price, qty⟩] })

/-- `RiskManager.should_add_position` of the backtest risk manager:
threshold is `self.layers[layer_idx][1]` alone (no cumulative sum). -/
def should_add_position (s : RMState) (entry_price current_price : ℚ)
    (position : Int) : Bool :=
  if s.positions.isEmpty then true
  else
    let layer_idx := s.positions.length
    if layers.length ≤ layer_idx then false
    else
      let reverse_pct := (layers.getD layer_idx (0, 0)).2
      if position = 1 then
        decide ((entry_price - current_price) / entry_price ≥ reverse_pct)
      else
        decide ((current_price - entry_price) / entry_price ≥ reverse_pct)

/-- `RiskManager._avg_price` of the backtest risk manager. -/
def avg_price (positions : List PosEntry) : ℚ :=
  ((positions.map (fun p => p.price * p.qty)).sum) /
    ((positions.map (fun p => p.qty)).sum)

/-- `RiskManager._first_last_avg` of the backtest risk manager. -/
def first_last_avg (positions : List PosEntry) : ℚ :=
  let first := positions.headD ⟨0, 0⟩
  let last := positions.getLastD ⟨0, 0⟩
  (first.price * first.qty + last.price * last.qty) / (first.qty + last.qty)

/-- `RiskManager.check_take_profit(current_price, position)` of the
backtest risk manager. -/
def check_take_profit (s : RMState) (current_price : ℚ)
    (position : Int) : Bool × RMState :=
  if s.positions.length = 0 then (false, s)
  else
    let layer_idx := s.positions.length - 1
    let rule := tp_rules.getD layer_idx (0, 0)
    let base_price :=
      if layer_idx ≤ 6 then avg_price s.positions
      else first_last_avg s.positions
    let pnl_pct :=
      if position = 1 then (current_price - base_price) / base_price
      else (base_price - current_price) / base_price
    if pnl_pct < rule.1 then (false, s)
    else
      match s.trailing_peak with
      | none => (false, { s with trailing_peak := some pnl_pct })
      | some peak =>
        let peak2 := max peak pnl_pct
        let s2 : RMState := { s with trailing_peak := some peak2 }
        if pnl_pct ≤ peak2 - rule.2 then (true, s2) else (false, s2)

end BacktestRMS

/-- Spec-side: the adverse price move fraction,
`(entryPrice - currentPrice)/entryPrice` for Long and the mirror for
Short. -/
def adverseMove (entry_price current_price : ℚ) (position : Int) : ℚ :=
  if position = 1 then (entry_price - current_price) / entry_price
  else (current_price - entry_price) / entry_price

/-- Spec-side: the cumulative reverse fraction, summed over all layers
up to and including layer `i`, for the online layer table. -/
def cumulativeReverseFraction (i : ℕ) : ℚ :=
  ∑ j in Finset.range (i + 1), (OnlineRMS.layers.getD j (0, 0)).2

/-- Proof-sharing device: `add_position` with the layer table abstracted;
both risk managers' `add_position` are definitionally this applied to
their own table. -/
def addPositionG (ls : List (ℚ × ℚ)) (s : RMState) (price base_qty : ℚ) :
    Option ℚ × RMState :=
  let layer_idx := s.positions.length
  if ls.length ≤ layer_idx then (none, s)
  else
    let qty := base_qty * (ls.getD layer_idx (0, 0)).1
    (some qty, { s with positions := s.positions ++ [⟨price, qty⟩] })

/-- Iterate `addPositionG` over a list of fill prices (discarding the
returned quantities, which are recorded in the entries anyway). -/
def addRunG (ls : List (ℚ × ℚ)) (base_qty : ℚ) : List ℚ → RMState → RMState
  | [], s => s
  | p :: ps, s => addRunG ls base_qty ps (addPositionG ls s p base_qty).2

/-- Proof-sharing device: `check_take_profit` with the take-profit rule
table abstracted; both risk managers' `check_take_profit` are
definitionally this applied to their own table. -/
def checkTpG (rules : List (ℚ × ℚ)) (s : RMState) (current_price : ℚ)
    (position : Int) : Bool × RMState :=
  if s.positions.length = 0 then (false, s)
  else
    let layer_idx := s.positions.length - 1
    let rule := rules.getD layer_idx (0, 0)
    let base_price :=
      if layer_idx ≤ 6 then OnlineRMS.avg_price s.positions
      else OnlineRMS.first_last_avg s.positions
    let pnl_pct :=
      if position = 1 then (current_price - base_price) / base_price
      else (base_price - current_price) / base_price
    if pnl_pct < rule.1 then (false, s)
    else
      match s.trailing_peak with
      | none => (false, { s with trailing_peak := some pnl_pct })
      | some peak =>
        let peak2 := max peak pnl_pct
        let s2 : RMState := { s with trailing_peak := some peak2 }
        if pnl_pct ≤ peak2 - rule.2 then (true, s2) else (false, s2)

/-- Iterate `checkTpG` over a list of `(current_price, position)` calls,
keeping only the evolving state. -/
def tpRunG (rules : List (ℚ × ℚ)) : List (ℚ × Int) → RMState → RMState
  | [], s => s
  | c :: cs, s => tpRunG rules cs (checkTpG rules s c.1 c.2).2

/-- Spec-side: the take-profit reference price — the quantity-weighted
average of all entries while the layer index (`len(entries) - 1`) is at
most 6, and the weighted average of only the first and last entries for
deeper layers. -/
def referencePrice (positions : List PosEntry) : ℚ :=
  if positions.length - 1 ≤ 6 then OnlineRMS.avg_price positions
  else OnlineRMS.first_last_avg positions

/-- Spec-side: the signed PnL fraction of `current_price` relative to the
take-profit reference price, for the given direction. -/
def pnlFraction (positions : List PosEntry) (current_price : ℚ)
    (position : Int) : ℚ :=
  if position = 1 then
    (current_price - referencePrice positions) / referencePrice positions
  else
    (referencePrice positions - current_price) / referencePrice positions

/-- The liquidation check of `Backtester.run_dynamic`
(`src/engine/backtest/backtest.py`): Long is liquidated when
`exit_price <= avg_entry * (1 - 1/leverage)`, Short when
`exit_price >= avg_entry * (1 + 1/leverage)`. -/
def check_liquidation (avg_entry exit_price leverage : ℚ) (position : Int) : Bool :=
  if position = 1 then decide (exit_price ≤ avg_entry * (1 - 1 / leverage))
  else decide (exit_price ≥ avg_entry * (1 + 1 / leverage))

/-- The retry loop of `OrderManager.open_long` (`src/engine/online/oms.py`):
`port k` is attempt `k`'s outcome of
`client.place_futures_market_order` — `some r` a response, `none` a
raised exception.  Runs up to `n` more attempts starting at attempt
`k`; `none` models the final `raise` after exhausting retries. -/
def openLongAttempts {α : Type} (port : ℕ → Option α) : ℕ → ℕ → Option α
  | _, 0 => none
  | k, n + 1 =>
    match port k with
    | some r => some r
    | none => openLongAttempts port (k + 1) n

/-- `OrderManager.open_long` with `max_retries` attempts. -/
def open_long {α : Type} (port : ℕ → Option α) (max_retries : ℕ) : Option α :=
  openLongAttempts port 0 max_retries

/-- Number of port calls `openLongAttempts` makes. -/
def openLongCalls {α : Type} (port : ℕ → Option α) : ℕ → ℕ → ℕ
  | _, 0 => 0
  | k, n + 1 =>
    match port k with
    | some _ => 1
    | none => 1 + openLongCalls port (k + 1) n

/-- The three values of `state_machine` in `trading_main`
(`src/engine/trader.py`): `TradingState.SIGNAL/OMS/RMS`. -/
inductive Machine where
  | signal
  | oms
  | rms
deriving Repr, DecidableEq

/-- The four values `oms_action` takes in `trading_main`. -/
inductive OmsAction where
  | long
  | short
  | closeLong
  | closeShort
deriving Repr, DecidableEq

/-- The loop variables of `trading_main` that the state machine mutates:
`state_machine`, `position`, `entry_price`, the `RiskManager` instance,
and the pending `oms_action`/`oms_qty`/`oms_price`.  `oms_action` is
`none` before its first assignment (entering OMS then finds no order id
and falls back to SIGNAL, like Python's `resp = None` branch).
`crashed` records that an uncaught exception (the `AttributeError` from
the missing `RiskManager.get_next_qty`) has terminated the loop. -/
structure TraderState where
  machine : Machine
  position : Int
  entry_price : Option ℚ
  rm : RMState
  oms_action : Option OmsAction
  oms_qty : ℚ
  oms_price : ℚ
  crashed : Bool
deriving Repr, DecidableEq

/-- Environment inputs consumed by one iteration of the `while True`
loop: the strategy signal, the websocket last price, whether the order
response carried an order id, and whether the order filled in time. -/
structure TraderInput where
  signal : Int
  price : ℚ
  has_order_id : Bool
  filled : Bool
deriving Repr, DecidableEq

/-- State at the top of the `while True` loop: SIGNAL, flat, fresh
`RiskManager()`. -/
def initTrader : TraderState :=
  ⟨Machine.signal, 0, none, RMState.empty, none, 0, 0, false⟩

/-- One iteration of `trading_main`'s `while True` loop, given this
iteration's environment inputs.  Market-data bookkeeping (queue drains,
dataframe updates) carries no trading state and is elided; the strategy
output and last price are inputs.  In the RMS state, a true
`should_add_position` reaches `risk_manager.get_next_qty`, which the
online `RiskManager` does not define, so the iteration crashes with
`AttributeError` (modelled by the absorbing `crashed` flag). -/
def traderStep (qty : ℚ) (s : TraderState) (inp : TraderInput) : TraderState :=
  if s.crashed then s
  else
    match s.machine with
    | Machine.signal =>
      if inp.signal = 1 then
        { s with machine := Machine.oms, oms_action := some OmsAction.long,
                 oms_qty := qty, oms_price := inp.price }
      else if inp.signal = -1 then
        { s with machine := Machine.oms, oms_action := some OmsAction.short,
                 oms_qty := qty, oms_price := inp.price }
      else s
    | Machine.oms =>
      match s.oms_action with
      | none => { s with machine := Machine.signal }
      | some act =>
        if inp.has_order_id = false then { s with machine := Machine.signal }
        else if inp.filled = false then { s with machine := Machine.signal }
        else
          match act with
          | OmsAction.long =>
            if s.position = 0 then
              { s with machine := Machine.rms, position := 1,
                       entry_price := some s.oms_price,
                       rm := (OnlineRMS.add_position RMState.empty s.oms_price s.oms_qty).2 }
            else
              { s with machine := Machine.rms,
                       rm := (OnlineRMS.add_position s.rm s.oms_price s.oms_qty).2 }
          | OmsAction.short =>
            if s.position = 0 then
              { s with machine := Machine.rms, position := -1,
                       entry_price := some s.oms_price,
                       rm := (OnlineRMS.add_position RMState.empty s.oms_price s.oms_qty).2 }
            else
              { s with machine := Machine.rms,
                       rm := (OnlineRMS.add_position s.rm s.oms_price s.oms_qty).2 }
          | OmsAction.closeLong =>
            { s with machine := Machine.signal, position := 0, entry_price := none }
          | OmsAction.closeShort =>
            { s with machine := Machine.signal, position := 0, entry_price := none }
    | Machine.rms =>
      if OnlineRMS.should_add_position s.rm (s.entry_price.getD 0) inp.price
          s.position then
        { s with crashed := true }
      else
        let tp := OnlineRMS.check_take_profit s.rm inp.price s.position
        if tp.1 then
          { s with machine := Machine.oms,
                   oms_action := some (if s.position = 1 then OmsAction.closeLong
                     else OmsAction.closeShort),
                   oms_qty := (tp.2.positions.map PosEntry.qty).sum,
                   oms_price := inp.price, rm := tp.2 }
        else { s with rm := tp.2 }

/-- Run the trading loop over a list of per-iteration inputs. -/
def traderRun (qty : ℚ) : TraderState → List TraderInput → TraderState
  | s, [] => s
  | s, i :: is => traderRun qty (traderStep qty s i) is

/-- One 1-minute bar of `Backtester.run_dynamic`
(`src/engine/backtest/backtest.py`) as the trading logic sees it:
its close price, the strategy signal in effect after this bar's
15m/1h aggregation updates, and the last 15m close
(`signal_df_15m['close'].iloc[-1]`) used as entry price on a flat
entry.  The bar aggregation and strategy invocation carry no trading
state and are abstracted as per-bar inputs. -/
structure Bar where
  close : ℚ
  signal : Int
  sigClose : ℚ
deriving Repr, DecidableEq

/-- One element of `self.trade_records` (timestamp/index fields
elided). -/
structure TradeRec where
  average_entry : ℚ
  exit_price : ℚ
  total_qty : ℚ
  pnl : ℚ
  position : Int
deriving Repr, DecidableEq

/-- One element of `self.equity_curve` (timestamp/index fields
elided). -/
structure EqPoint where
  realized_pnl : ℚ
  unrealized_pnl : ℚ
  total_pnl : ℚ
deriving Repr, DecidableEq

/-- The loop state of `run_dynamic`: `current_position`, the
`RiskManager` instance (`None` when flat), `entry_price`,
`realized_pnl`, `self.trade_records` and `self.equity_curve`. -/
structure BTState where
  position : Int
  rm : Option RMState
  entry_price : Option ℚ
  realized : ℚ
  trades : List TradeRec
  equity : List EqPoint
deriving Repr, DecidableEq

/-- `sum(p['qty'] for p in risk_manager.positions)` as computed inline
in `run_dynamic`. -/
def btTotalQty (rm : RMState) : ℚ :=
  (rm.positions.map PosEntry.qty).sum

/-- `sum(p['price']*p['qty'] ...) / sum(p['qty'] ...)` as computed
inline in `run_dynamic`. -/
def btAvgEntry (rm : RMState) : ℚ :=
  ((rm.positions.map (fun p => p.price * p.qty)).sum) / btTotalQty rm

/-- Appending a trade record and accumulating `realized_pnl`, then
going flat — the common tail of the liquidation, ladder-exhaustion and
take-profit close branches of `run_dynamic`. -/
def closeTrade (s : BTState) (t : TradeRec) : BTState :=
  { s with trades := s.trades ++ [t], realized := s.realized + t.pnl,
           position := 0, rm := none, entry_price := none }

/-- The per-bar unrealized PnL of the equity-curve section of
`run_dynamic`: zero when flat or without a risk manager, else
`(close - avg_entry)/avg_entry * position * total_qty * leverage`. -/
def btUnreal (leverage close : ℚ) (position : Int) (rm : Option RMState) : ℚ :=
  if position ≠ 0 then
    match rm with
    | some r => (close - btAvgEntry r) / btAvgEntry r * position *
        btTotalQty r * leverage
    | none => 0
  else 0

/-- The entry/liquidation/add/take-profit section of one `while` loop
iteration of `run_dynamic` (everything before the equity-curve
append). -/
def btStepCore (base_qty leverage : ℚ) (s : BTState) (b : Bar) : BTState :=
  if s.position = 0 ∧ b.signal ≠ 0 then
    let entry := b.sigClose
    let rm1 := (BacktestRMS.add_position RMState.empty entry base_qty).2
    { s with position := b.signal, entry_price := some entry, rm := some rm1 }
  else if s.position ≠ 0 then
    match s.rm with
    | none => s
    | some rm =>
      let cp := b.close
      let avg := btAvgEntry rm
      if check_liquidation avg cp leverage s.position then
        closeTrade s ⟨avg, cp, btTotalQty rm, -(btTotalQty rm * leverage),
          s.position⟩
      else if BacktestRMS.should_add_position rm (s.entry_price.getD 0) cp
          s.position then
        let res := BacktestRMS.add_position rm cp base_qty
        match res.1 with
        | none =>
          closeTrade s ⟨btAvgEntry res.2, cp, btTotalQty res.2,
            (cp - btAvgEntry res.2) / btAvgEntry res.2 * s.position *
              btTotalQty res.2 * leverage, s.position⟩
        | some _ => { s with rm := some res.2 }
      else
        let tp := BacktestRMS.check_take_profit rm cp s.position
        if tp.1 then
          closeTrade s ⟨btAvgEntry tp.2, cp, btTotalQty tp.2,
            (cp - btAvgEntry tp.2) / btAvgEntry tp.2 * s.position *
              btTotalQty tp.2 * leverage, s.position⟩
        else { s with rm := some tp.2 }
  else s

/-- One full `while` loop iteration of `run_dynamic`: the trading
section followed by the equity-curve append for this bar. -/
def btStep (base_qty leverage : ℚ) (s : BTState) (b : Bar) : BTState :=
  let s1 := btStepCore base_qty leverage s b
  let u := btUnreal leverage b.close s1.position s1.rm
  { s1 with equity := s1.equity ++ [⟨s1.realized, u, s1.realized + u⟩] }

/-- The `while current_idx < len(df_1m)` loop over the post-warm-up
bars. -/
def btRun (base_qty leverage : ℚ) : BTState → List Bar → BTState
  | s, [] => s
  | s, b :: bs => btRun base_qty leverage (btStep base_qty leverage s b) bs

/-- The final force-close of `run_dynamic`: if a position remains open
after the loop, append a trade at the final close price and accumulate
its pnl (no equity point is appended). -/
def btFinalize (leverage last_close : ℚ) (s : BTState) : BTState :=
  if s.position ≠ 0 then
    match s.rm with
    | some rm =>
      let pnl := (last_close - btAvgEntry rm) / btAvgEntry rm * s.position *
        btTotalQty rm * leverage
      { s with
        trades := s.trades ++
          [⟨btAvgEntry rm, last_close, btTotalQty rm, pnl, s.position⟩],
        realized := s.realized + pnl }
    | none => s
  else s

/-- Loop state on entering the `while` loop: flat, no trades, and the
6000 warm-up equity points with all-zero PnL. -/
def btInit : BTState :=
  ⟨0, none, none, 0, [], List.replicate 6000 ⟨0, 0, 0⟩⟩

/-- `Backtester.run_dynamic` over the post-warm-up bar list: the loop
followed by the final force-close at the last close price. -/
def run_dynamic (base_qty leverage : ℚ) (bars : List Bar) : BTState :=
  btFinalize leverage ((bars.getLast?.map Bar.close).getD 0)
    (btRun base_qty leverage btInit bars)

/-- Cumulative PnL over a trade-record list. -/
def sumPnl (ts : List TradeRec) : ℚ :=
  (ts.map TradeRec.pnl).sum

lemma sum_take_map_snd (l : List (ℚ × ℚ)) (m : ℕ) :
    ((l.take m).map Prod.snd).sum =
      ∑ j in Finset.range (min m l.length), (l.getD j (0, 0)).2 := by
  induction l generalizing m with
  | nil => simp
  | cons a t ih =>
    cases m with
    | zero => simp
    | succ k =>
      have hmin : min (k + 1) (a :: t).length = min k t.length + 1 := by
        simp [Nat.succ_min_succ]
      rw [hmin]
      rw [Finset.sum_range_succ']
      simp only [List.getD_cons_succ, List.getD_cons_zero]
      rw [List.take_succ_cons, List.map_cons, List.sum_cons, ih k]
      ring

lemma online_add_eq_G : OnlineRMS.add_position = addPositionG OnlineRMS.layers := rfl

lemma backtest_add_eq_G : BacktestRMS.add_position = addPositionG BacktestRMS.layers := rfl

lemma online_tp_eq_G : OnlineRMS.check_take_profit = checkTpG OnlineRMS.tp_rules := rfl

lemma backtest_tp_eq_G : BacktestRMS.check_take_profit = checkTpG BacktestRMS.tp_rules := rfl

/-- C1: for a non-empty ladder with `layerIndex = len(entries) < len(layers)`,
the online `should_add_position` returns true iff the adverse price move
fraction is at least the cumulative reverse fraction summed over all
layers up to and including the next layer index; it returns true
unconditionally on an empty ladder and false once
`layerIndex >= len(layers)`. -/
theorem should_add_entry_threshold (s : RMState) (ep cp : ℚ) (pos : Int) :
    (s.positions = [] → OnlineRMS.should_add_position s ep cp pos = true) ∧
    (s.positions ≠ [] → OnlineRMS.layers.length ≤ s.positions.length →
      OnlineRMS.should_add_position s ep cp pos = false) ∧
    (s.positions ≠ [] → s.positions.length < OnlineRMS.layers.length →
      (OnlineRMS.should_add_position s ep cp pos = true ↔
        cumulativeReverseFraction s.positions.length ≤ adverseMove ep cp pos)) := by
  refine ⟨?_, ?_, ?_⟩
  · intro h
    simp [OnlineRMS.should_add_position, h]
  · intro h hlen
    have hne : s.positions.isEmpty = false := by
      simpa [List.isEmpty_iff] using h
    simp [OnlineRMS.should_add_position, hne, hlen]
  · intro h hlen
    have hne : s.positions.isEmpty = false := by
      simpa [List.isEmpty_iff] using h
    have hsum : ((OnlineRMS.layers.take (s.positions.length + 1)).map Prod.snd).sum =
        cumulativeReverseFraction s.positions.length := by
      rw [sum_take_map_snd, cumulativeReverseFraction,
        Nat.min_eq_left (by omega)]
    rw [OnlineRMS.should_add_position]
    simp only [hne, Bool.false_eq_true, if_false, Nat.not_le.mpr hlen, hsum]
    by_cases hp : pos = 1 <;> simp [hp, adverseMove, ge_iff_le, Nat.not_le.mpr hlen]

/-- Witness for `should_add_entry_threshold`: a one-entry ladder at entry
100, price 99, Long; the adverse move 1/100 exceeds the cumulative
threshold 1/1000, so the ladder adds. -/
theorem should_add_entry_threshold_witness :
    OnlineRMS.should_add_position ⟨[⟨100, 1⟩], none⟩ 100 99 1 = true := by
  have h := (should_add_entry_threshold ⟨[⟨100, 1⟩], none⟩ 100 99 1).2.2
    (by simp) (by simp [OnlineRMS.layers])
  rw [h]
  norm_num [adverseMove, cumulativeReverseFraction, OnlineRMS.layers,
    Finset.sum_range_succ]

lemma addPositionG_snd (ls : List (ℚ × ℚ)) (s : RMState) (p bq : ℚ)
    (hlt : s.positions.length < ls.length) :
    (addPositionG ls s p bq).2 =
      { s with positions :=
          s.positions ++ [⟨p, bq * (ls.getD s.positions.length (0, 0)).1⟩] } := by
  rw [addPositionG]
  simp [Nat.not_le.mpr hlt]

lemma addRunG_qtys (ls : List (ℚ × ℚ)) (bq : ℚ) (prices : List ℚ) :
    ∀ s : RMState, s.positions.length + prices.length ≤ ls.length →
      (addRunG ls bq prices s).positions.map PosEntry.qty =
        s.positions.map PosEntry.qty ++
          ((ls.drop s.positions.length).take prices.length).map
            (fun l => bq * l.1) := by
  induction prices with
  | nil => intro s h; simp [addRunG]
  | cons p ps ih =>
    intro s h
    have hlt : s.positions.length < ls.length := by
      simp only [List.length_cons] at h; omega
    have h2 : (s.positions ++
        [(⟨p, bq * (ls.getD s.positions.length (0, 0)).1⟩ : PosEntry)]).length
          + ps.length ≤ ls.length := by
      simp only [List.length_append, List.length_cons, List.length_nil,
        List.length_cons] at h ⊢
      omega
    rw [addRunG, addPositionG_snd ls s p bq hlt]
    rw [ih _ h2]
    simp only [List.length_cons, List.length_append, List.length_nil,
      List.map_append, List.map_cons, List.map_nil]
    rw [List.drop_eq_getElem_cons hlt, List.take_succ_cons, List.map_cons]
    simp [List.getD_eq_getElem ls (0, 0) hlt, List.getElem?_eq_getElem hlt]

lemma addRunG_length (ls : List (ℚ × ℚ)) (bq : ℚ) (prices : List ℚ)
    (s : RMState) (h : s.positions.length + prices.length ≤ ls.length) :
    (addRunG ls bq prices s).positions.length =
      s.positions.length + prices.length := by
  have := addRunG_qtys ls bq prices s h
  have hlen := congrArg List.length this
  simp only [List.length_map, List.length_append, List.length_take,
    List.length_drop] at hlen
  omega

/-- C7: starting from an empty ladder, `i+1` calls of `add_position`
(with `i < len(layers)`) append exactly the quantities
`baseQty * layers[0].multiplier, ..., baseQty * layers[i].multiplier`,
and after `len(layers)` calls the next call returns `None`
(`LadderExhausted`); this holds for the online and the backtest risk
manager alike, each over its own layer table. -/
theorem add_entry_quantity_sequence (bq : ℚ) (prices : List ℚ) (i : ℕ) :
    (i < OnlineRMS.layers.length → prices.length = i + 1 →
      (addRunG OnlineRMS.layers bq prices RMState.empty).positions.map PosEntry.qty =
        (OnlineRMS.layers.take (i + 1)).map (fun l => bq * l.1)) ∧
    (prices.length = OnlineRMS.layers.length → ∀ p,
      (OnlineRMS.add_position (addRunG OnlineRMS.layers bq prices RMState.empty) p bq).1 = none) ∧
    (i < BacktestRMS.layers.length → prices.length = i + 1 →
      (addRunG BacktestRMS.layers bq prices RMState.empty).positions.map PosEntry.qty =
        (BacktestRMS.layers.take (i + 1)).map (fun l => bq * l.1)) ∧
    (prices.length = BacktestRMS.layers.length → ∀ p,
      (BacktestRMS.add_position (addRunG BacktestRMS.layers bq prices RMState.empty) p bq).1 = none) := by
  refine ⟨?_, ?_, ?_, ?_⟩
  · intro hi hp
    have := addRunG_qtys OnlineRMS.layers bq prices RMState.empty
      (by simp [RMState.empty]; omega)
    simpa [RMState.empty, hp] using this
  · intro hp p
    have hlen := addRunG_length OnlineRMS.layers bq prices RMState.empty
      (by simp [RMState.empty, hp])
    have hlen2 : (addRunG OnlineRMS.layers bq prices RMState.empty).positions.length =
        OnlineRMS.layers.length := by
      simpa [RMState.empty, hp] using hlen
    rw [online_add_eq_G, addPositionG]
    simp [hlen2]
  · intro hi hp
    have := addRunG_qtys BacktestRMS.layers bq prices RMState.empty
      (by simp [RMState.empty]; omega)
    simpa [RMState.empty, hp] using this
  · intro hp p
    have hlen := addRunG_length BacktestRMS.layers bq prices RMState.empty
      (by simp [RMState.empty, hp])
    have hlen2 : (addRunG BacktestRMS.layers bq prices RMState.empty).positions.length =
        BacktestRMS.layers.length := by
      simpa [RMState.empty, hp] using hlen
    rw [backtest_add_eq_G, addPositionG]
    simp [hlen2]

/-- Witness for `add_entry_quantity_sequence`: three adds on the online
ladder yield quantities `baseQty * [1, 1, 2]`, and thirteen adds exhaust
it. -/
theorem add_entry_quantity_sequence_witness :
    (addRunG OnlineRMS.layers 3 [100, 99, 98] RMState.empty).positions.map PosEntry.qty =
      [3 * 1, 3 * 1, 3 * 2] ∧
    (OnlineRMS.add_position
      (addRunG OnlineRMS.layers 3 [100, 99, 98, 97, 96, 95, 94, 93, 92, 91, 90, 89, 88]
        RMState.empty) 87 3).1 = none := by
  constructor
  · have h := (add_entry_quantity_sequence 3 [100, 99, 98] 2).1
      (by simp [OnlineRMS.layers]) (by simp)
    rw [h]
    norm_num [OnlineRMS.layers]
  · exact (add_entry_quantity_sequence 3
      [100, 99, 98, 97, 96, 95, 94, 93, 92, 91, 90, 89, 88] 0).2.1
      (by simp [OnlineRMS.layers]) 87

lemma ite_decide_pair {c : Prop} [Decidable c] (a : RMState) :
    (if c then ((true : Bool), a) else ((false : Bool), a)) = (decide c, a) := by
  by_cases hc : c <;> simp [hc]

lemma checkTpG_spec (rules : List (ℚ × ℚ)) (s : RMState) (cp : ℚ) (pos : Int)
    (h : s.positions ≠ []) :
    (pnlFraction s.positions cp pos < (rules.getD (s.positions.length - 1) (0, 0)).1 →
      checkTpG rules s cp pos = (false, s)) ∧
    ((rules.getD (s.positions.length - 1) (0, 0)).1 ≤ pnlFraction s.positions cp pos →
      s.trailing_peak = none →
      checkTpG rules s cp pos =
        (false, { s with trailing_peak := some (pnlFraction s.positions cp pos) })) ∧
    (∀ pk, (rules.getD (s.positions.length - 1) (0, 0)).1 ≤ pnlFraction s.positions cp pos →
      s.trailing_peak = some pk →
      checkTpG rules s cp pos =
        (decide (pnlFraction s.positions cp pos ≤
            max pk (pnlFraction s.positions cp pos) -
              (rules.getD (s.positions.length - 1) (0, 0)).2),
          { s with trailing_peak := some (max pk (pnlFraction s.positions cp pos)) })) := by
  have hlen0 : ¬ s.positions.length = 0 := by
    simpa [List.length_eq_zero] using h
  refine ⟨?_, ?_, ?_⟩
  · intro hlt
    simp only [pnlFraction, referencePrice] at hlt
    simp only [checkTpG, if_neg hlen0]
    rw [if_pos hlt]
  · intro hge hnone
    simp only [pnlFraction, referencePrice] at hge ⊢
    simp only [checkTpG, if_neg hlen0, hnone]
    rw [if_neg (not_lt.mpr hge)]
  · intro pk hge hsome
    simp only [pnlFraction, referencePrice] at hge ⊢
    simp only [checkTpG, if_neg hlen0, hsome]
    rw [if_neg (not_lt.mpr hge), ite_decide_pair]

/-- C3: for every non-empty ladder, one `check_take_profit` call behaves
as specified: the reference price is the quantity-weighted average of
all entries while the layer index is at most 6 and the first/last
weighted average beyond; the call returns false (and changes nothing)
while the signed PnL fraction is below the layer's trigger fraction; on
first reaching the trigger it latches the trailing peak to that fraction
and returns false; with a peak already latched it ratchets the peak to
the maximum and returns true exactly when the PnL fraction has retraced
to at most peak minus the trailing fraction.  Holds for the online and
backtest risk managers over their own take-profit tables. -/
theorem check_take_profit_behavior (s : RMState) (cp : ℚ) (pos : Int)
    (h : s.positions ≠ []) :
    ((pnlFraction s.positions cp pos <
        (OnlineRMS.tp_rules.getD (s.positions.length - 1) (0, 0)).1 →
      OnlineRMS.check_take_profit s cp pos = (false, s)) ∧
    ((OnlineRMS.tp_rules.getD (s.positions.length - 1) (0, 0)).1 ≤
        pnlFraction s.positions cp pos →
      s.trailing_peak = none →
      OnlineRMS.check_take_profit s cp pos =
        (false, { s with trailing_peak := some (pnlFraction s.positions cp pos) })) ∧
    (∀ pk, (OnlineRMS.tp_rules.getD (s.positions.length - 1) (0, 0)).1 ≤
        pnlFraction s.positions cp pos →
      s.trailing_peak = some pk →
      OnlineRMS.check_take_profit s cp pos =
        (decide (pnlFraction s.positions cp pos ≤
            max pk (pnlFraction s.positions cp pos) -
              (OnlineRMS.tp_rules.getD (s.positions.length - 1) (0, 0)).2),
          { s with trailing_peak := some (max pk (pnlFraction s.positions cp pos)) }))) ∧
    ((pnlFraction s.positions cp pos <
        (BacktestRMS.tp_rules.getD (s.positions.length - 1) (0, 0)).1 →
      BacktestRMS.check_take_profit s cp pos = (false, s)) ∧
    ((BacktestRMS.tp_rules.getD (s.positions.length - 1) (0, 0)).1 ≤
        pnlFraction s.positions cp pos →
      s.trailing_peak = none →
      BacktestRMS.check_take_profit s cp pos =
        (false, { s with trailing_peak := some (pnlFraction s.positions cp pos) })) ∧
    (∀ pk, (BacktestRMS.tp_rules.getD (s.positions.length - 1) (0, 0)).1 ≤
        pnlFraction s.positions cp pos →
      s.trailing_peak = some pk →
      BacktestRMS.check_take_profit s cp pos =
        (decide (pnlFraction s.positions cp pos ≤
            max pk (pnlFraction s.positions cp pos) -
              (BacktestRMS.tp_rules.getD (s.positions.length - 1) (0, 0)).2),
          { s with trailing_peak := some (max pk (pnlFraction s.positions cp pos)) }))) := by
  constructor
  · rw [online_tp_eq_G]
    exact checkTpG_spec OnlineRMS.tp_rules s cp pos h
  · rw [backtest_tp_eq_G]
    exact checkTpG_spec BacktestRMS.tp_rules s cp pos h

/-- Witness for `check_take_profit_behavior`: one entry at 100, price
101, Long; pnl 1/100 reaches the trigger 1/1000, so the online manager
latches the trailing peak at 1/100 and returns false. -/
theorem check_take_profit_behavior_witness :
    OnlineRMS.check_take_profit ⟨[⟨100, 1⟩], none⟩ 101 1 =
      (false, ⟨[⟨100, 1⟩], some (1/100)⟩) := by
  have hge : (OnlineRMS.tp_rules.getD (([⟨100, 1⟩] : List PosEntry).length - 1) (0, 0)).1 ≤
      pnlFraction [⟨100, 1⟩] 101 1 := by
    norm_num [pnlFraction, referencePrice, OnlineRMS.avg_price, OnlineRMS.tp_rules]
  have h := ((check_take_profit_behavior ⟨[⟨100, 1⟩], none⟩ 101 1 (by simp)).1).2.1 hge rfl
  rw [h]
  norm_num [pnlFraction, referencePrice, OnlineRMS.avg_price]

lemma checkTpG_peak_step (rules : List (ℚ × ℚ)) (s : RMState) (cp : ℚ)
    (pos : Int) (pk : ℚ) (hs : s.trailing_peak = some pk) :
    ∃ pk2, (checkTpG rules s cp pos).2.trailing_peak = some pk2 ∧ pk ≤ pk2 := by
  by_cases hemp : s.positions = []
  · have h0 : s.positions.length = 0 := by simp [hemp]
    rw [checkTpG, if_pos h0]
    exact ⟨pk, hs, le_refl pk⟩
  · obtain ⟨h1, h2, h3⟩ := checkTpG_spec rules s cp pos hemp
    rcases lt_or_le (pnlFraction s.positions cp pos)
        ((rules.getD (s.positions.length - 1) (0, 0)).1) with hlt | hge
    · rw [h1 hlt]
      exact ⟨pk, hs, le_refl pk⟩
    · rw [h3 pk hge hs]
      exact ⟨max pk (pnlFraction s.positions cp pos), rfl, le_max_left _ _⟩

lemma tpRunG_peak_mono (rules : List (ℚ × ℚ)) (calls : List (ℚ × Int)) :
    ∀ (s : RMState) (pk : ℚ), s.trailing_peak = some pk →
      ∃ pk2, (tpRunG rules calls s).trailing_peak = some pk2 ∧ pk ≤ pk2 := by
  induction calls with
  | nil =>
    intro s pk hs
    exact ⟨pk, by rw [tpRunG]; exact hs, le_refl pk⟩
  | cons c cs ih =>
    intro s pk hs
    obtain ⟨pk1, h1, hle1⟩ := checkTpG_peak_step rules s c.1 c.2 pk hs
    obtain ⟨pk2, h2, hle2⟩ := ih _ pk1 h1
    exact ⟨pk2, by rw [tpRunG]; exact h2, le_trans hle1 hle2⟩

/-- C9: `trailing_peak`, once set, never decreases — neither across one
`check_take_profit` call nor across any sequence of successive calls —
for the online and the backtest risk manager. -/
theorem trailing_peak_never_decreases (calls : List (ℚ × Int)) (s : RMState)
    (pk : ℚ) (cp : ℚ) (pos : Int) :
    (s.trailing_peak = some pk →
      ∃ pk2, ((OnlineRMS.check_take_profit s cp pos).2).trailing_peak = some pk2 ∧
        pk ≤ pk2) ∧
    (s.trailing_peak = some pk →
      ∃ pk2, (tpRunG OnlineRMS.tp_rules calls s).trailing_peak = some pk2 ∧
        pk ≤ pk2) ∧
    (s.trailing_peak = some pk →
      ∃ pk2, ((BacktestRMS.check_take_profit s cp pos).2).trailing_peak = some pk2 ∧
        pk ≤ pk2) ∧
    (s.trailing_peak = some pk →
      ∃ pk2, (tpRunG BacktestRMS.tp_rules calls s).trailing_peak = some pk2 ∧
        pk ≤ pk2) := by
  refine ⟨?_, ?_, ?_, ?_⟩
  · intro hs
    rw [online_tp_eq_G]
    exact checkTpG_peak_step OnlineRMS.tp_rules s cp pos pk hs
  · intro hs
    exact tpRunG_peak_mono OnlineRMS.tp_rules calls s pk hs
  · intro hs
    rw [backtest_tp_eq_G]
    exact checkTpG_peak_step BacktestRMS.tp_rules s cp pos pk hs
  · intro hs
    exact tpRunG_peak_mono BacktestRMS.tp_rules calls s pk hs

/-- Witness for `trailing_peak_never_decreases`: a latched peak of 1/100
survives (not below 1/100) a further online call at price 101. -/
theorem trailing_peak_never_decreases_witness :
    ∃ pk2, (tpRunG OnlineRMS.tp_rules [(101, 1)]
        ⟨[⟨100, 1⟩], some (1/100)⟩).trailing_peak = some pk2 ∧ (1/100 : ℚ) ≤ pk2 :=
  (trailing_peak_never_decreases [(101, 1)] ⟨[⟨100, 1⟩], some (1/100)⟩
    (1/100) 101 1).2.1 rfl

/-- C4 counterexample: Long with average entry 2 and leverage 2 at exit
price 1 — the adverse move `(avg - exit)/avg = 1/2` equals `1/leverage`
exactly (is not strictly greater), yet the check liquidates.  The
boundary is inclusive, not exclusive as claimed. -/
theorem check_liquidation_boundary_counterexample :
    check_liquidation 2 1 2 1 = true ∧
    (2 - 1) / 2 = 1 / (2 : ℚ) ∧
    ¬ (1 / (2 : ℚ) < (2 - 1) / 2) := by
  norm_num [check_liquidation]

/-- C4 amended: `check_liquidation` returns true iff the price has moved
against the average entry by at least (not strictly more than)
`1/leverage`; the boundary at exactly `1/leverage` is inclusive
(liquidated), per the `<=` / `>=` comparisons for Long/Short. -/
theorem check_liquidation_inclusive (avg ep lev : ℚ) (pos : Int)
    (havg : 0 < avg) :
    (pos = 1 →
      (check_liquidation avg ep lev pos = true ↔ 1 / lev ≤ (avg - ep) / avg)) ∧
    (pos ≠ 1 →
      (check_liquidation avg ep lev pos = true ↔ 1 / lev ≤ (ep - avg) / avg)) := by
  constructor
  · intro hp
    simp only [check_liquidation, if_pos hp, decide_eq_true_eq]
    rw [le_div_iff₀ havg]
    constructor <;> intro h <;> nlinarith
  · intro hp
    simp only [check_liquidation, if_neg hp, ge_iff_le, decide_eq_true_eq]
    rw [le_div_iff₀ havg]
    constructor <;> intro h <;> nlinarith

/-- Witness for `check_liquidation_inclusive`: Long, average entry 100,
leverage 2, exit 50 — a 50% adverse move liquidates. -/
theorem check_liquidation_inclusive_witness :
    check_liquidation 100 50 2 1 = true := by
  have h := (check_liquidation_inclusive 100 50 2 1 (by norm_num)).1 rfl
  rw [h]
  norm_num

lemma openLongAttempts_all_fail {α : Type} (port : ℕ → Option α) :
    ∀ n k, (∀ i, k ≤ i → i < k + n → port i = none) →
      openLongAttempts port k n = none ∧ openLongCalls port k n = n := by
  intro n
  induction n with
  | zero => intro k h; exact ⟨rfl, rfl⟩
  | succ m ih =>
    intro k h
    have hk : port k = none := h k (le_refl k) (by omega)
    have ih2 := ih (k + 1) (fun i h1 h2 => h i (by omega) (by omega))
    rw [openLongAttempts, openLongCalls, hk]
    constructor
    · exact ih2.1
    · show 1 + openLongCalls port (k + 1) m = m + 1
      rw [ih2.2]
      omega

lemma openLongAttempts_first_success {α : Type} (port : ℕ → Option α) :
    ∀ j n k r, j < n → (∀ i, k ≤ i → i < k + j → port i = none) →
      port (k + j) = some r →
      openLongAttempts port k n = some r ∧ openLongCalls port k n = j + 1 := by
  intro j
  induction j with
  | zero =>
    intro n k r hj h hp
    cases n with
    | zero => omega
    | succ m =>
      rw [Nat.add_zero] at hp
      rw [openLongAttempts, openLongCalls, hp]
      exact ⟨rfl, rfl⟩
  | succ jm ih =>
    intro n k r hj h hp
    cases n with
    | zero => omega
    | succ m =>
      have hk : port k = none := h k (le_refl k) (by omega)
      have hp2 : port (k + 1 + jm) = some r := by
        rw [show k + 1 + jm = k + (jm + 1) by omega]
        exact hp
      have ih2 := ih m (k + 1) r (by omega)
        (fun i h1 h2 => h i (by omega) (by omega)) hp2
      rw [openLongAttempts, openLongCalls, hk]
      constructor
      · exact ih2.1
      · show 1 + openLongCalls port (k + 1) m = jm + 1 + 1
        rw [ih2.2]
        omega

lemma openLongCalls_le {α : Type} (port : ℕ → Option α) :
    ∀ n k, openLongCalls port k n ≤ n := by
  intro n
  induction n with
  | zero => intro k; exact le_refl 0
  | succ m ih =>
    intro k
    rw [openLongCalls]
    cases hp : port k with
    | some r => simp
    | none =>
      simp only []
      have := ih (k + 1)
      omega

/-- C8: the retry loop of `open_long` calls the execution port at most
`max_retries` times; it returns `none` (raises) exactly when all
`max_retries` attempts fail, having made exactly `max_retries` calls;
and if the first success is attempt `j < max_retries`, it returns that
response after exactly `j+1` calls — in particular it retries after
every failed attempt. -/
theorem submit_retry_semantics {α : Type} (port : ℕ → Option α) (mr : ℕ) :
    (openLongCalls port 0 mr ≤ mr) ∧
    ((∀ k, k < mr → port k = none) →
      open_long port mr = none ∧ openLongCalls port 0 mr = mr) ∧
    (∀ j r, j < mr → (∀ k, k < j → port k = none) → port j = some r →
      open_long port mr = some r ∧ openLongCalls port 0 mr = j + 1) := by
  refine ⟨openLongCalls_le port mr 0, ?_, ?_⟩
  · intro h
    exact openLongAttempts_all_fail port mr 0 (fun i h1 h2 => h i (by omega))
  · intro j r hj h hp
    exact openLongAttempts_first_success port j mr 0 r hj
      (fun i h1 h2 => h i (by omega)) (by simpa using hp)

/-- Witness for `submit_retry_semantics`: `max_retries = 3` against a
port that fails on attempts 0 and 1 and succeeds on attempt 2 — exactly
3 port calls and the successful response is returned. -/
theorem submit_retry_semantics_witness :
    open_long (fun k => if k < 2 then none else some (7 : ℕ)) 3 = some 7 ∧
    openLongCalls (fun k => if k < 2 then none else some (7 : ℕ)) 0 3 = 3 := by
  have h := (submit_retry_semantics (fun k => if k < 2 then none else some (7 : ℕ)) 3).2.2
    2 7 (by omega) (fun k hk => by simp [hk]) (by norm_num)
  exact ⟨h.1, h.2⟩

/-- C2 counterexample: the backtest and online risk managers are not
identical.  Their layer tables differ (13 vs 12 layers at different
scales), and on the same one-entry ladder state with entry 100 and
price 99.9 Long, the online manager adds (cumulative threshold 0.001)
while the backtest manager does not (per-layer threshold 0.02); the
second add quantity also differs (multiplier 1 vs 2). -/
theorem ladder_logic_not_identical :
    OnlineRMS.layers ≠ BacktestRMS.layers ∧
    OnlineRMS.tp_rules ≠ BacktestRMS.tp_rules ∧
    OnlineRMS.should_add_position ⟨[⟨100, 1⟩], none⟩ 100 (999/10) 1 = true ∧
    BacktestRMS.should_add_position ⟨[⟨100, 1⟩], none⟩ 100 (999/10) 1 = false ∧
    (OnlineRMS.add_position ⟨[⟨100, 1⟩], none⟩ 99 1).1 = some 1 ∧
    (BacktestRMS.add_position ⟨[⟨100, 1⟩], none⟩ 99 1).1 = some 2 := by
  refine ⟨?_, ?_, ?_, ?_, ?_, ?_⟩
  · intro h
    have hlen := congrArg List.length h
    simp [OnlineRMS.layers, BacktestRMS.layers] at hlen
  · intro h
    have h0 := congrArg (fun l => List.getD l 0 (0, 0)) h
    simp [OnlineRMS.tp_rules, BacktestRMS.tp_rules] at h0
    norm_num at h0
  · norm_num [OnlineRMS.should_add_position, OnlineRMS.layers]
  · norm_num [BacktestRMS.should_add_position, BacktestRMS.layers]
  · norm_num [OnlineRMS.add_position, OnlineRMS.layers]
  · norm_num [BacktestRMS.add_position, BacktestRMS.layers]

/-- C2 amended: the backtest simulator reuses the same ladder interface
and algorithm shape, but not identical logic — the tables and the
reverse-entry threshold rule differ, so decisions diverge beyond the
first layer (see `ladder_logic_not_identical`).  The two managers do
agree on the empty ladder: `should_add_position` is unconditionally
true, `check_take_profit` returns false, and the seeded first entry is
identical (`qty = baseQty * 1`) for every input. -/
theorem ladder_logic_empty_agreement (pk : Option ℚ) (ep cp pr bq : ℚ)
    (pos : Int) :
    OnlineRMS.should_add_position ⟨[], pk⟩ ep cp pos =
      BacktestRMS.should_add_position ⟨[], pk⟩ ep cp pos ∧
    OnlineRMS.should_add_position ⟨[], pk⟩ ep cp pos = true ∧
    (OnlineRMS.check_take_profit ⟨[], pk⟩ cp pos).1 =
      (BacktestRMS.check_take_profit ⟨[], pk⟩ cp pos).1 ∧
    (OnlineRMS.check_take_profit ⟨[], pk⟩ cp pos).1 = false ∧
    OnlineRMS.add_position ⟨[], pk⟩ pr bq =
      BacktestRMS.add_position ⟨[], pk⟩ pr bq := by
  refine ⟨?_, ?_, ?_, ?_, ?_⟩
  · simp [OnlineRMS.should_add_position, BacktestRMS.should_add_position]
  · simp [OnlineRMS.should_add_position]
  · simp [OnlineRMS.check_take_profit, BacktestRMS.check_take_profit]
  · simp [OnlineRMS.check_take_profit]
  · simp [OnlineRMS.add_position, BacktestRMS.add_position,
      OnlineRMS.layers, BacktestRMS.layers]

/-- C10: in the RMS state, whenever `should_add_position` returns true,
the add-entry branch reaches `risk_manager.get_next_qty` — a method the
online `RiskManager` does not define — so the iteration always raises
`AttributeError` (the loop dies) instead of queuing an add-entry order:
the state is unchanged except for the crash, in particular no
transition to OMS and no `oms_action` is queued. -/
theorem rms_add_branch_always_crashes (qty : ℚ) (s : TraderState)
    (inp : TraderInput) (hm : s.machine = Machine.rms) (hc : s.crashed = false)
    (hadd : OnlineRMS.should_add_position s.rm (s.entry_price.getD 0) inp.price
      s.position = true) :
    traderStep qty s inp = { s with crashed := true } := by
  simp [traderStep, hm, hc, hadd]

/-- Witness for `rms_add_branch_always_crashes`: a concrete RMS-state
iteration with `should_add_position` true crashes. -/
theorem rms_add_branch_always_crashes_witness :
    traderStep 1 ⟨Machine.rms, 1, some 100, ⟨[], none⟩, none, 0, 0, false⟩
        ⟨0, 100, false, false⟩ =
      ⟨Machine.rms, 1, some 100, ⟨[], none⟩, none, 0, 0, true⟩ :=
  rms_add_branch_always_crashes 1 _ _ rfl rfl
    (by simp [OnlineRMS.should_add_position])

/-- C6 counterexample: the claim that a directional signal in the Signal
state with an open position never triggers a position-opening order is
false.  Reachable trace: open Long at 100 (filled), trail-arm at 101,
take-profit triggers at 100.5, the close order is submitted but not
filled, so the controller falls back to Signal with `position = 1` and a
non-empty ladder; a Long signal there moves to OMS with
`oms_action = long` — a position-opening order intent issued from
Signal while a position is open. -/
theorem signal_reopen_counterexample :
    (traderRun 1 initTrader [⟨1, 100, false, false⟩, ⟨0, 0, true, true⟩,
        ⟨0, 101, false, false⟩, ⟨0, 201/2, false, false⟩,
        ⟨0, 0, true, false⟩]).machine = Machine.signal ∧
    (traderRun 1 initTrader [⟨1, 100, false, false⟩, ⟨0, 0, true, true⟩,
        ⟨0, 101, false, false⟩, ⟨0, 201/2, false, false⟩,
        ⟨0, 0, true, false⟩]).position = 1 ∧
    (traderRun 1 initTrader [⟨1, 100, false, false⟩, ⟨0, 0, true, true⟩,
        ⟨0, 101, false, false⟩, ⟨0, 201/2, false, false⟩,
        ⟨0, 0, true, false⟩]).rm.positions ≠ [] ∧
    (traderStep 1 (traderRun 1 initTrader [⟨1, 100, false, false⟩,
        ⟨0, 0, true, true⟩, ⟨0, 101, false, false⟩, ⟨0, 201/2, false, false⟩,
        ⟨0, 0, true, false⟩]) ⟨1, 201/2, false, false⟩).machine = Machine.oms ∧
    (traderStep 1 (traderRun 1 initTrader [⟨1, 100, false, false⟩,
        ⟨0, 0, true, true⟩, ⟨0, 101, false, false⟩, ⟨0, 201/2, false, false⟩,
        ⟨0, 0, true, false⟩]) ⟨1, 201/2, false, false⟩).oms_action =
      some OmsAction.long := by
  have h5 : traderRun 1 initTrader [⟨1, 100, false, false⟩, ⟨0, 0, true, true⟩,
      ⟨0, 101, false, false⟩, ⟨0, 201/2, false, false⟩, ⟨0, 0, true, false⟩] =
      ⟨Machine.signal, 1, some 100, ⟨[⟨100, 1⟩], some (1/100)⟩,
        some OmsAction.closeLong, 1, 201/2, false⟩ := by
    norm_num [traderRun, traderStep, initTrader, RMState.empty,
      OnlineRMS.should_add_position, OnlineRMS.check_take_profit,
      OnlineRMS.add_position, OnlineRMS.avg_price, OnlineRMS.first_last_avg,
      OnlineRMS.layers, OnlineRMS.tp_rules, max_def]
  rw [h5]
  refine ⟨rfl, rfl, by simp, ?_, ?_⟩ <;> simp [traderStep]

/-- C6 amended: at most one position is open at any time and no second
ladder is ever created — when OMS executes a directional (long/short)
order while a position is already open, it does not reset or reseed the
ladder but leaves `position` unchanged and either leaves the ladder
as-is (unfilled/no order id/full ladder) or appends exactly one entry to
the existing ladder.  However, such an order is not "ignored" in
Signal: after an unfilled close order the controller re-enters Signal
with the position still open (see `signal_reopen_counterexample`), and a
directional signal there issues an add-entry-style open order from
Signal rather than from Risk. -/
theorem oms_open_with_position_extends_ladder (qty : ℚ) (s : TraderState)
    (inp : TraderInput) (hm : s.machine = Machine.oms) (hc : s.crashed = false)
    (ha : s.oms_action = some OmsAction.long ∨
      s.oms_action = some OmsAction.short)
    (hp : s.position ≠ 0) :
    (traderStep qty s inp).position = s.position ∧
    ((traderStep qty s inp).rm.positions = s.rm.positions ∨
      (traderStep qty s inp).rm.positions = s.rm.positions ++
        [⟨s.oms_price,
          s.oms_qty * (OnlineRMS.layers.getD s.rm.positions.length (0, 0)).1⟩]) := by
  have step_eq : traderStep qty s inp =
      (if inp.has_order_id = false then { s with machine := Machine.signal }
       else if inp.filled = false then { s with machine := Machine.signal }
       else { s with
              machine := Machine.rms,
              rm := (OnlineRMS.add_position s.rm s.oms_price s.oms_qty).2 }) := by
    rcases ha with ha | ha <;> simp [traderStep, hm, hc, ha, hp]
  rw [step_eq]
  split_ifs with h1 h2
  · exact ⟨rfl, Or.inl rfl⟩
  · exact ⟨rfl, Or.inl rfl⟩
  · constructor
    · rfl
    · rcases Nat.lt_or_ge s.rm.positions.length OnlineRMS.layers.length with
        hlt | hfull
      · right
        rw [online_add_eq_G, addPositionG_snd _ _ _ _ hlt]
      · left
        rw [online_add_eq_G, addPositionG]
        simp [hfull]

/-- Witness for `oms_open_with_position_extends_ladder`: a filled long
order with `position = 1` and a one-entry ladder leaves the position at
1 and appends one entry. -/
theorem oms_open_with_position_extends_ladder_witness :
    (traderStep 1 ⟨Machine.oms, 1, some 100, ⟨[⟨100, 1⟩], none⟩,
        some OmsAction.long, 1, 99, false⟩ ⟨0, 0, true, true⟩).position = 1 ∧
    ((traderStep 1 ⟨Machine.oms, 1, some 100, ⟨[⟨100, 1⟩], none⟩,
        some OmsAction.long, 1, 99, false⟩ ⟨0, 0, true, true⟩).rm.positions =
          [⟨100, 1⟩] ∨
      (traderStep 1 ⟨Machine.oms, 1, some 100, ⟨[⟨100, 1⟩], none⟩,
        some OmsAction.long, 1, 99, false⟩ ⟨0, 0, true, true⟩).rm.positions =
          [⟨100, 1⟩] ++ [⟨99, 1 * (OnlineRMS.layers.getD 1 (0, 0)).1⟩]) :=
  oms_open_with_position_extends_ladder 1
    ⟨Machine.oms, 1, some 100, ⟨[⟨100, 1⟩], none⟩, some OmsAction.long, 1, 99,
      false⟩ ⟨0, 0, true, true⟩ rfl rfl (Or.inl rfl) (by decide)

lemma btStep_trades (bq lev : ℚ) (s : BTState) (b : Bar) :
    (btStep bq lev s b).trades = (btStepCore bq lev s b).trades := rfl

lemma btStep_realized (bq lev : ℚ) (s : BTState) (b : Bar) :
    (btStep bq lev s b).realized = (btStepCore bq lev s b).realized := rfl

lemma btStepCore_inv (bq lev : ℚ) (s : BTState) (b : Bar)
    (h : sumPnl s.trades = s.realized) :
    sumPnl (btStepCore bq lev s b).trades = (btStepCore bq lev s b).realized := by
  rw [btStepCore]
  repeat' split
  all_goals try simp_all [closeTrade, sumPnl]
  all_goals repeat' split
  all_goals simp_all [closeTrade, sumPnl]

lemma btStep_inv (bq lev : ℚ) (s : BTState) (b : Bar)
    (h : sumPnl s.trades = s.realized) :
    sumPnl (btStep bq lev s b).trades = (btStep bq lev s b).realized := by
  rw [btStep_trades, btStep_realized]
  exact btStepCore_inv bq lev s b h

lemma btRun_inv (bq lev : ℚ) (bars : List Bar) :
    ∀ s : BTState, sumPnl s.trades = s.realized →
      sumPnl (btRun bq lev s bars).trades = (btRun bq lev s bars).realized := by
  induction bars with
  | nil => intro s h; exact h
  | cons b bs ih =>
    intro s h
    rw [btRun]
    exact ih (btStep bq lev s b) (btStep_inv bq lev s b h)

lemma btFinalize_inv (lev lc : ℚ) (s : BTState)
    (h : sumPnl s.trades = s.realized) :
    sumPnl (btFinalize lev lc s).trades = (btFinalize lev lc s).realized := by
  rw [btFinalize]
  repeat' split
  all_goals simp_all [sumPnl]

lemma btFinalize_equity (lev lc : ℚ) (s : BTState) :
    (btFinalize lev lc s).equity = s.equity := by
  rw [btFinalize]
  repeat' split
  all_goals rfl

lemma btFinalize_realized (lev lc : ℚ) (s : BTState) :
    (btFinalize lev lc s).realized =
      s.realized + btUnreal lev lc s.position s.rm := by
  rw [btFinalize, btUnreal.eq_def]
  by_cases hp : s.position ≠ 0
  · rw [if_pos hp, if_pos hp]
    cases hrm : s.rm with
    | none => simp
    | some rm => simp
  · rw [if_neg hp, if_neg hp]
    simp

lemma btStep_lastEq (bq lev : ℚ) (s : BTState) (b : Bar) :
    (btStep bq lev s b).equity.getLastD ⟨0, 0, 0⟩ =
      ⟨(btStep bq lev s b).realized,
       btUnreal lev b.close (btStep bq lev s b).position (btStep bq lev s b).rm,
       (btStep bq lev s b).realized +
         btUnreal lev b.close (btStep bq lev s b).position
           (btStep bq lev s b).rm⟩ := by
  show ((btStepCore bq lev s b).equity ++ [_]).getLastD _ = _
  rw [List.getLastD_concat]
  rfl

lemma btRun_lastEq (bq lev : ℚ) (bars : List Bar) :
    ∀ s : BTState, bars ≠ [] →
      (btRun bq lev s bars).equity.getLastD ⟨0, 0, 0⟩ =
        ⟨(btRun bq lev s bars).realized,
         btUnreal lev ((bars.getLast?.map Bar.close).getD 0)
           (btRun bq lev s bars).position (btRun bq lev s bars).rm,
         (btRun bq lev s bars).realized +
           btUnreal lev ((bars.getLast?.map Bar.close).getD 0)
             (btRun bq lev s bars).position (btRun bq lev s bars).rm⟩ := by
  induction bars with
  | nil => intro s hne; exact absurd rfl hne
  | cons b bs ih =>
    intro s hne
    cases bs with
    | nil =>
      rw [btRun, btRun]
      simpa using btStep_lastEq bq lev s b
    | cons c t =>
      rw [btRun]
      have hlast : ((b :: c :: t).getLast?.map Bar.close).getD 0 =
          (((c :: t).getLast?.map Bar.close).getD 0) := by
        rw [List.getLast?_cons_cons]
      rw [hlast]
      exact ih (btStep bq lev s b) (by simp)

lemma getLastD_replicate_self (n : ℕ) (a : EqPoint) :
    (List.replicate n a).getLastD a = a := by
  induction n with
  | zero => rfl
  | succ m ih =>
    rw [List.replicate_succ, List.getLastD_cons, ih]

/-- C5 amended: at the end of every backtest run, the sum of pnl over
all recorded trade records equals the last equity-curve point's
`total_pnl` (realized plus unrealized).  It equals the last point's
`realized_pnl` exactly in runs that end flat; when a position remains
open and is force-closed at the final close price, that trade's pnl is
reflected in the last point's `unrealized_pnl` — the loop's last equity
point is appended before the force-close and no further point follows
it. -/
theorem backtest_pnl_sum_eq_last_total (bq lev : ℚ) (bars : List Bar) :
    sumPnl (run_dynamic bq lev bars).trades =
      ((run_dynamic bq lev bars).equity.getLastD ⟨0, 0, 0⟩).total_pnl := by
  have hinit : sumPnl btInit.trades = btInit.realized := rfl
  cases bars with
  | nil =>
    show sumPnl (btFinalize lev _ (btRun bq lev btInit [])).trades = _
    rw [show btRun bq lev btInit [] = btInit from rfl]
    rw [show btFinalize lev ((List.getLast? ([] : List Bar) |>.map Bar.close).getD 0)
      btInit = btInit from rfl]
    show (0 : ℚ) = ((List.replicate 6000 (⟨0, 0, 0⟩ : EqPoint)).getLastD
      ⟨0, 0, 0⟩).total_pnl
    rw [getLastD_replicate_self]
  | cons b bs =>
    have hne : b :: bs ≠ [] := by simp
    have hinv := btRun_inv bq lev (b :: bs) btInit hinit
    have hfin := btFinalize_inv lev
      (((b :: bs).getLast?.map Bar.close).getD 0)
      (btRun bq lev btInit (b :: bs)) hinv
    rw [run_dynamic]
    rw [hfin, btFinalize_equity, btFinalize_realized,
      btRun_lastEq bq lev (b :: bs) btInit hne]

/-- C5 counterexample: a two-bar run that opens Long at 100 on the first
bar and ends with the position still open at close 101.  The final
force-close records a trade with pnl 1/100, so the trade-pnl sum is
1/100, but the last equity point (appended before the force-close)
still has `realized_pnl = 0`: the claimed equality with the last
point's `realized_pnl` fails exactly in the force-close case it
asserts to cover. -/
theorem backtest_pnl_sum_counterexample :
    sumPnl (run_dynamic 1 1 [⟨100, 1, 100⟩, ⟨101, 0, 0⟩]).trades = 1/100 ∧
    ((run_dynamic 1 1 [⟨100, 1, 100⟩, ⟨101, 0, 0⟩]).equity.getLastD
      ⟨0, 0, 0⟩).realized_pnl = 0 ∧
    ¬ (sumPnl (run_dynamic 1 1 [⟨100, 1, 100⟩, ⟨101, 0, 0⟩]).trades =
      ((run_dynamic 1 1 [⟨100, 1, 100⟩, ⟨101, 0, 0⟩]).equity.getLastD
        ⟨0, 0, 0⟩).realized_pnl) := by
  have h1 : btStep 1 1 btInit ⟨100, 1, 100⟩ =
      ⟨1, some ⟨[⟨100, 1⟩], none⟩, some 100, 0, [],
        List.replicate 6000 ⟨0, 0, 0⟩ ++ [⟨0, 0, 0⟩]⟩ := by
    norm_num [btStep, btStepCore, btInit, btUnreal, btAvgEntry, btTotalQty,
      BacktestRMS.add_position, BacktestRMS.layers, RMState.empty]
  have h2 : btStep 1 1 ⟨1, some ⟨[⟨100, 1⟩], none⟩, some 100, 0, [],
        List.replicate 6000 ⟨0, 0, 0⟩ ++ [⟨0, 0, 0⟩]⟩ ⟨101, 0, 0⟩ =
      ⟨1, some ⟨[⟨100, 1⟩], some (1/100)⟩, some 100, 0, [],
        (List.replicate 6000 ⟨0, 0, 0⟩ ++ [⟨0, 0, 0⟩]) ++ [⟨0, 1/100, 1/100⟩]⟩ := by
    norm_num [btStep, btStepCore, btUnreal, btAvgEntry, btTotalQty,
      check_liquidation, BacktestRMS.should_add_position,
      BacktestRMS.check_take_profit, BacktestRMS.add_position,
      BacktestRMS.avg_price, BacktestRMS.layers, BacktestRMS.tp_rules, max_def]
  have hrun : btRun 1 1 btInit [⟨100, 1, 100⟩, ⟨101, 0, 0⟩] =
      ⟨1, some ⟨[⟨100, 1⟩], some (1/100)⟩, some 100, 0, [],
        (List.replicate 6000 ⟨0, 0, 0⟩ ++ [⟨0, 0, 0⟩]) ++ [⟨0, 1/100, 1/100⟩]⟩ := by
    rw [btRun, h1, btRun, h2, btRun]
  have hfin : run_dynamic 1 1 [⟨100, 1, 100⟩, ⟨101, 0, 0⟩] =
      ⟨1, some ⟨[⟨100, 1⟩], some (1/100)⟩, some 100, 1/100,
        [⟨100, 101, 1, 1/100, 1⟩],
        (List.replicate 6000 ⟨0, 0, 0⟩ ++ [⟨0, 0, 0⟩]) ++ [⟨0, 1/100, 1/100⟩]⟩ := by
    rw [run_dynamic, hrun]
    norm_num [btFinalize, btAvgEntry, btTotalQty]
  rw [hfin]
  norm_num [sumPnl, List.getLastD_concat]
